import Mathlib

/-!
Shallow embedding of the go-groupme client library (GroupMe API client).

The embedding models:
* a JSON value type mirroring the wire format handled by Go's `encoding/json`;
* the domain records (`Group`, `Member`, `Message`, `Attachment`, …) with the
  encoders/decoders induced by their struct tags;
* the `UnixTime` codec (`MarshalJSON` / `UnmarshalJSON`);
* the transport (`client.Do`: token injection, content-type header, error
  envelope handling, body-close behaviour);
* the groups and messages service operations (local validation, query
  parameter building, envelope unwrapping).
-/

namespace GroupMe

/-! ## JSON values -/

inductive Json where
  | null : Json
  | bool (b : Bool) : Json
  | num (n : Int) : Json
  | str (s : String) : Json
  | arr (elems : List Json) : Json
  | obj (fields : List (String × Json)) : Json

/-- Field lookup in a JSON object; on duplicate keys the later entry wins,
as in Go's `encoding/json`. -/
def getField : List (String × Json) → String → Option Json
  | [], _ => none
  | (k', v) :: rest, k =>
    match getField rest k with
    | some r => some r
    | none => if k' == k then some v else none

/-! ## Decoding primitives (Go `encoding/json` semantics) -/

/-- Decode a JSON value into a Go `string`: `null` leaves the zero value. -/
def decodeString : Json → Option String
  | Json.null => some ""
  | Json.str s => some s
  | _ => none

/-- `int64` range check used by `encoding/json` and `strconv.ParseInt`. -/
def int64ok (n : Int) : Bool := decide (-(2 ^ 63) ≤ n) && decide (n < 2 ^ 63)

/-- `uint64` range check. -/
def uint64ok (n : Nat) : Bool := decide (n < 2 ^ 64)

/-- Decode a JSON value into a Go `int`/`int64` field. -/
def decodeInt64 : Json → Option Int
  | Json.null => some 0
  | Json.num n => if int64ok n then some n else none
  | _ => none

/-- Decode a JSON value into a Go `uint64` field. -/
def decodeUInt64 : Json → Option Nat
  | Json.null => some 0
  | Json.num n => if 0 ≤ n ∧ n < 2 ^ 64 then some n.toNat else none
  | _ => none

/-- Decode a JSON value into a Go `bool` field. -/
def decodeBool : Json → Option Bool
  | Json.null => some false
  | Json.bool b => some b
  | _ => none

/-- Decode a `UnixTime` value. `UnixTime.UnmarshalJSON` runs
`strconv.ParseInt` on the raw token, so only an (in-range) integer token
succeeds: `null`, strings, etc. are parse errors. -/
def decodeUnixTime : Json → Option Int
  | Json.num n => if int64ok n then some n else none
  | _ => none

/-- Decode every element of a JSON array. -/
def decodeList {α : Type} (dec : Json → Option α) : List Json → Option (List α)
  | [] => some []
  | j :: js =>
    match dec j with
    | none => none
    | some x =>
      match decodeList dec js with
      | none => none
      | some xs => some (x :: xs)

/-- Decode a JSON value into a Go slice field: `null` decodes to the empty
slice. -/
def decodeArr {α : Type} (dec : Json → Option α) : Json → Option (List α)
  | Json.null => some []
  | Json.arr js => decodeList dec js
  | _ => none

/-- Decode a struct field: an absent key leaves the zero value. -/
def fieldD {α : Type} (fs : List (String × Json)) (k : String) (zero : α)
    (dec : Json → Option α) : Option α :=
  match getField fs k with
  | none => some zero
  | some j => dec j

/-- Decode a JSON value into Go's empty struct `struct{}`: only an object or
`null` is accepted. -/
def decodeEmptyStruct : Json → Option Unit
  | Json.null => some ()
  | Json.obj _ => some ()
  | _ => none

/-! ## Domain records -/

structure Attachment where
  Type' : String
  URL : String
  Lat : String
  Lng : String
  Name : String
  Loci : List (List Int)
  UserIDs : List String
  Token : String
  Placeholder : String
  Charmap : List (List Nat)
deriving DecidableEq

def Attachment.IsTypeImage (a : Attachment) : Bool := a.Type' == "image"

def Attachment.IsTypeLocation (a : Attachment) : Bool := a.Type' == "location"

def Attachment.IsTypeMentions (a : Attachment) : Bool := a.Type' == "mentions"

def Attachment.IsTypeSplit (a : Attachment) : Bool := a.Type' == "split"

def Attachment.IsTypeEmoji (a : Attachment) : Bool := a.Type' == "emoji"

structure Member where
  UserID : String
  Nickname : String
  Muted : Bool
  ImageURL : String
deriving DecidableEq

structure Preview where
  Nickname : String
  Text : String
  ImageURL : String
  Attachments : List Attachment
deriving DecidableEq

structure Messages where
  Count : Nat
  LastMessageID : String
  LastMessageCreatedAt : Int
  Preview : Preview
deriving DecidableEq

structure Group where
  ID : String
  Name : String
  Type' : String
  Description : String
  ImageURL : String
  CreatorUserID : String
  CreatedAt : Int
  UpdatedAt : Int
  Members : List Member
  ShareURL : String
  Messages : Messages
deriving DecidableEq

structure Message where
  ID : String
  SourceGUID : String
  CreatedAt : Int
  UserID : String
  GroupID : String
  Name : String
  AvatarURL : String
  Text : String
  System : Bool
  FavoritedBy : List String
  Attachments : List Attachment
deriving DecidableEq

/-! ## Zero values (Go zero-initialisation) -/

def Attachment.zero : Attachment := ⟨"", "", "", "", "", [], [], "", "", []⟩

def Member.zero : Member := ⟨"", "", false, ""⟩

def Preview.zero : Preview := ⟨"", "", "", []⟩

def Messages.zero : Messages := ⟨0, "", 0, Preview.zero⟩

def Group.zero : Group := ⟨"", "", "", "", "", "", 0, 0, [], "", Messages.zero⟩

def Message.zero : Message := ⟨"", "", 0, "", "", "", "", "", false, [], []⟩

/-! ## Well-formedness: numeric fields within the Go integer ranges -/

def Attachment.wf (a : Attachment) : Bool :=
  a.Loci.all (fun l => l.all int64ok) && a.Charmap.all (fun l => l.all uint64ok)

def Preview.wf (p : Preview) : Bool := p.Attachments.all Attachment.wf

def Messages.wf (m : Messages) : Bool :=
  uint64ok m.Count && int64ok m.LastMessageCreatedAt && m.Preview.wf

def Group.wf (g : Group) : Bool :=
  int64ok g.CreatedAt && int64ok g.UpdatedAt && g.Messages.wf

/-! ## Encoders (Go `json.Marshal` of the tagged structs) -/

/-- A struct field with the `omitempty` option: emitted only when the value
is not the zero value of its type. -/
def optField (k : String) (emit : Bool) (v : Json) : List (String × Json) :=
  if emit then [(k, v)] else []

def attachmentFields (a : Attachment) : List (String × Json) :=
  [("type", Json.str a.Type')]
    ++ optField "url" (a.URL != "") (Json.str a.URL)
    ++ optField "lat" (a.Lat != "") (Json.str a.Lat)
    ++ optField "lng" (a.Lng != "") (Json.str a.Lng)
    ++ optField "name" (a.Name != "") (Json.str a.Name)
    ++ optField "loci" (!a.Loci.isEmpty)
         (Json.arr (a.Loci.map (fun l => Json.arr (l.map Json.num))))
    ++ optField "user_ids" (!a.UserIDs.isEmpty)
         (Json.arr (a.UserIDs.map Json.str))
    ++ optField "token" (a.Token != "") (Json.str a.Token)
    ++ optField "placeholder" (a.Placeholder != "") (Json.str a.Placeholder)
    ++ optField "charmap" (!a.Charmap.isEmpty)
         (Json.arr (a.Charmap.map (fun l => Json.arr (l.map (fun n => Json.num (Int.ofNat n))))))

def encodeAttachment (a : Attachment) : Json :=
  Json.obj (attachmentFields a)

def encodeMember (m : Member) : Json :=
  Json.obj [("user_id", Json.str m.UserID), ("nickname", Json.str m.Nickname),
    ("muted", Json.bool m.Muted), ("image_url", Json.str m.ImageURL)]

def encodePreview (p : Preview) : Json :=
  Json.obj [("nickname", Json.str p.Nickname), ("text", Json.str p.Text),
    ("image_url", Json.str p.ImageURL),
    ("attachments", Json.arr (p.Attachments.map encodeAttachment))]

def encodeMessages (m : Messages) : Json :=
  Json.obj [("count", Json.num (m.Count : Int)),
    ("last_message_id", Json.str m.LastMessageID),
    ("last_message_created_at", Json.num m.LastMessageCreatedAt),
    ("preview", encodePreview m.Preview)]

def encodeGroup (g : Group) : Json :=
  Json.obj [("id", Json.str g.ID), ("name", Json.str g.Name),
    ("type", Json.str g.Type'), ("description", Json.str g.Description),
    ("image_url", Json.str g.ImageURL),
    ("creator_user_id", Json.str g.CreatorUserID),
    ("created_at", Json.num g.CreatedAt), ("updated_at", Json.num g.UpdatedAt),
    ("members", Json.arr (g.Members.map encodeMember)),
    ("share_url", Json.str g.ShareURL),
    ("messages", encodeMessages g.Messages)]

/-! ## Decoders (Go `json.Unmarshal` into the tagged structs) -/

def decodeAttachment : Json → Option Attachment
  | Json.null => some Attachment.zero
  | Json.obj fs => do
    let ty ← fieldD fs "type" "" decodeString
    let url ← fieldD fs "url" "" decodeString
    let lat ← fieldD fs "lat" "" decodeString
    let lng ← fieldD fs "lng" "" decodeString
    let nm ← fieldD fs "name" "" decodeString
    let loci ← fieldD fs "loci" [] (decodeArr (decodeArr decodeInt64))
    let uids ← fieldD fs "user_ids" [] (decodeArr decodeString)
    let tok ← fieldD fs "token" "" decodeString
    let ph ← fieldD fs "placeholder" "" decodeString
    let cm ← fieldD fs "charmap" [] (decodeArr (decodeArr decodeUInt64))
    some ⟨ty, url, lat, lng, nm, loci, uids, tok, ph, cm⟩
  | _ => none

def decodeMember : Json → Option Member
  | Json.null => some Member.zero
  | Json.obj fs => do
    let uid ← fieldD fs "user_id" "" decodeString
    let nick ← fieldD fs "nickname" "" decodeString
    let muted ← fieldD fs "muted" false decodeBool
    let img ← fieldD fs "image_url" "" decodeString
    some ⟨uid, nick, muted, img⟩
  | _ => none

def decodePreview : Json → Option Preview
  | Json.null => some Preview.zero
  | Json.obj fs => do
    let nick ← fieldD fs "nickname" "" decodeString
    let text ← fieldD fs "text" "" decodeString
    let img ← fieldD fs "image_url" "" decodeString
    let atts ← fieldD fs "attachments" [] (decodeArr decodeAttachment)
    some ⟨nick, text, img, atts⟩
  | _ => none

def decodeMessages : Json → Option Messages
  | Json.null => some Messages.zero
  | Json.obj fs => do
    let cnt ← fieldD fs "count" 0 decodeUInt64
    let lmid ← fieldD fs "last_message_id" "" decodeString
    let lmca ← fieldD fs "last_message_created_at" 0 decodeUnixTime
    let pv ← fieldD fs "preview" Preview.zero decodePreview
    some ⟨cnt, lmid, lmca, pv⟩
  | _ => none

def decodeGroup : Json → Option Group
  | Json.null => some Group.zero
  | Json.obj fs => do
    let id ← fieldD fs "id" "" decodeString
    let nm ← fieldD fs "name" "" decodeString
    let ty ← fieldD fs "type" "" decodeString
    let ds ← fieldD fs "description" "" decodeString
    let img ← fieldD fs "image_url" "" decodeString
    let cuid ← fieldD fs "creator_user_id" "" decodeString
    let ca ← fieldD fs "created_at" 0 decodeUnixTime
    let ua ← fieldD fs "updated_at" 0 decodeUnixTime
    let mems ← fieldD fs "members" [] (decodeArr decodeMember)
    let su ← fieldD fs "share_url" "" decodeString
    let msgs ← fieldD fs "messages" Messages.zero decodeMessages
    some ⟨id, nm, ty, ds, img, cuid, ca, ua, mems, su, msgs⟩
  | _ => none

def decodeMessage : Json → Option Message
  | Json.null => some Message.zero
  | Json.obj fs => do
    let id ← fieldD fs "id" "" decodeString
    let sg ← fieldD fs "source_guid" "" decodeString
    let ca ← fieldD fs "created_at" 0 decodeUnixTime
    let uid ← fieldD fs "user_id" "" decodeString
    let gid ← fieldD fs "group_id" "" decodeString
    let nm ← fieldD fs "name" "" decodeString
    let av ← fieldD fs "avatar_url" "" decodeString
    let tx ← fieldD fs "text" "" decodeString
    let sys ← fieldD fs "system" false decodeBool
    let fav ← fieldD fs "favorited_by" [] (decodeArr decodeString)
    let atts ← fieldD fs "attachments" [] (decodeArr decodeAttachment)
    some ⟨id, sg, ca, uid, gid, nm, av, tx, sys, fav, atts⟩
  | _ => none

/-! ## The API error envelope (`Error` in the source) -/

structure ErrorMeta where
  Code : Int
  Errors : List String
deriving DecidableEq

structure Error where
  Meta : ErrorMeta
deriving DecidableEq

def ErrorMeta.zero : ErrorMeta := ⟨0, []⟩

def decodeErrorMeta : Json → Option ErrorMeta
  | Json.null => some ErrorMeta.zero
  | Json.obj fs => do
    let c ← fieldD fs "code" 0 decodeInt64
    let es ← fieldD fs "errors" [] (decodeArr decodeString)
    some ⟨c, es⟩
  | _ => none

/-- Decode the error envelope `{"meta": {...}, "response": {}}`. -/
def decodeError : Json → Option Error
  | Json.null => some ⟨ErrorMeta.zero⟩
  | Json.obj fs => do
    let m ← fieldD fs "meta" ErrorMeta.zero decodeErrorMeta
    let _ ← fieldD fs "response" () decodeEmptyStruct
    some ⟨m⟩
  | _ => none

/-! ## URL query parameters and headers

`url.Values` / `http.Header` are maps from key to value list; `Set` replaces
every value stored under the key, `Get` returns the first value. We model a
values map as an association list with at most one entry per `Set` key. -/

/-- `Values.Set` / `Header.Set`: replace whatever is stored under `k`. -/
def setParam (ps : List (String × String)) (k v : String) : List (String × String) :=
  ps.filter (fun p => p.1 != k) ++ [(k, v)]

/-- `Values.Get` / `Header.Get`: the value stored under `k`, if any. -/
def getParam (ps : List (String × String)) (k : String) : Option String :=
  (ps.find? (fun p => p.1 == k)).map Prod.snd

/-! ## Decimal integer formatting and parsing
(`fmt.Sprintf "%d"` and `strconv.ParseInt(s, 10, 64)`) -/

/-- The base-10 digits of `n`, least significant first; `fuel ≥ n` makes the
recursion structural. -/
def digitsLE : Nat → Nat → List Char
  | 0, _ => []
  | fuel + 1, n => if n = 0 then [] else Nat.digitChar (n % 10) :: digitsLE fuel (n / 10)

/-- Decimal representation of a natural number. -/
def natDecimal (n : Nat) : String :=
  if n = 0 then "0" else String.mk (digitsLE n n).reverse

/-- Decimal representation of an integer: Go's `%d` verb / `strconv.Itoa`. -/
def intDecimal (i : Int) : String :=
  if i < 0 then String.mk ('-' :: (digitsLE i.natAbs i.natAbs).reverse)
  else natDecimal i.toNat

/-- The numeric value of a decimal digit character. -/
def digitVal (c : Char) : Option Nat :=
  if '0' ≤ c ∧ c ≤ '9' then some (c.toNat - 48) else none

/-- Accumulate decimal digits left to right, failing on a non-digit
(the loop of `strconv.ParseUint` at base 10). -/
def parseDigits : List Char → Nat → Option Nat
  | [], acc => some acc
  | c :: cs, acc =>
    match digitVal c with
    | none => none
    | some d => parseDigits cs (acc * 10 + d)

/-- The digits of `strconv.ParseInt` after the sign was stripped: at least
one digit, all digits parsed by the `ParseUint` loop, and the value must fit
in an `int64` (the negative bound is one larger, as in the source of
`strconv`). -/
def parseSigned (neg : Bool) (ds : List Char) : Option Int :=
  match ds with
  | [] => none
  | _ :: _ =>
    match parseDigits ds 0 with
    | none => none
    | some un =>
      if neg then
        if un ≤ 2 ^ 63 then some (-(un : Int)) else none
      else
        if un < 2 ^ 63 then some (un : Int) else none

/-- `strconv.ParseInt(s, 10, 64)`: optional sign, at least one digit, and the
value must fit in an `int64`. -/
def parseInt64 (s : String) : Option Int :=
  match s.data with
  | [] => none
  | c :: rest =>
    if c = '-' then parseSigned true rest
    else if c = '+' then parseSigned false rest
    else parseSigned false (c :: rest)

/-- `UnixTime.MarshalJSON`: the decimal ASCII form of the epoch-second count. -/
def UnixTime.marshalJSON (sec : Int) : String := intDecimal sec

/-- `UnixTime.UnmarshalJSON`: parse the bytes as a base-10 signed integer;
a parse failure is returned as an error (`none`). -/
def UnixTime.unmarshalJSON (data : String) : Option Int := parseInt64 data

/-- A byte sequence that is a base-10 signed integer: optional sign followed
by at least one decimal digit. -/
def isSignedDecimal (s : String) : Bool :=
  match s.data with
  | [] => false
  | c :: rest =>
    let ds := if c = '-' then rest else if c = '+' then rest else c :: rest
    !ds.isEmpty && ds.all (fun d => decide ('0' ≤ d) && decide (d ≤ '9'))

/-! ## Transport (`client.Do`) -/

/-- The base URL of which all API endpoints are built from. -/
def BaseURL : String := "https://api.groupme.com/v3"

structure Request where
  method : String
  url : String
  query : List (String × String)
  header : List (String × String)
  body : Option Json

/-- An HTTP response as seen by the client: a status code and a body.
`body = none` models a body that is not syntactically valid JSON. -/
structure HttpResponse where
  statusCode : Int
  body : Option Json

/-- The network: maps the outgoing request to either a transport failure or a
response. -/
def Net : Type := Request → Except Unit HttpResponse

inductive DoOutcome where
  | ok (resp : HttpResponse) : DoOutcome
  | netErr : DoOutcome
  | decodeErr : DoOutcome
  | apiErr (code : Int) (errors : List String) : DoOutcome

/-- The result of `client.Do` together with whether `Do` itself closed the
response body before returning. -/
structure DoResult where
  outcome : DoOutcome
  bodyClosed : Bool

/-- The part of `client.Do` that runs before the request is sent: overwrite
the `token` query parameter with the configured access token, and set the
`Content-Type` header to `application/json`. -/
def prepareRequest (accessToken : String) (req : Request) : Request :=
  { req with
    query := setParam req.query "token" accessToken,
    header := setParam req.header "Content-Type" "application/json" }

/-- `client.Do`: prepare the request, send it, and on a status code ≥ 400
decode the body as the error envelope. Mirrors the source exactly: on the
error-envelope path the body is closed only when the decode succeeds. -/
def clientDo (accessToken : String) (net : Net) (req : Request) : DoResult :=
  match net (prepareRequest accessToken req) with
  | Except.error _ => ⟨DoOutcome.netErr, false⟩
  | Except.ok resp =>
    if 400 ≤ resp.statusCode then
      match resp.body.bind decodeError with
      | none => ⟨DoOutcome.decodeErr, false⟩
      | some e => ⟨DoOutcome.apiErr e.Meta.Code e.Meta.Errors, true⟩
    else ⟨DoOutcome.ok resp, false⟩

/-! ## Service layer -/

inductive SvcError where
  | validation (msg : String) : SvcError
  | transport : SvcError
  | decode : SvcError
  | api (code : Int) (errors : List String) : SvcError
deriving DecidableEq

/-- `resp, err = s.client.Do(req); if err != nil { return }` -/
def runDo (accessToken : String) (net : Net) (req : Request) :
    Except SvcError HttpResponse :=
  match clientDo accessToken net req with
  | ⟨DoOutcome.ok resp, _⟩ => Except.ok resp
  | ⟨DoOutcome.netErr, _⟩ => Except.error SvcError.transport
  | ⟨DoOutcome.decodeErr, _⟩ => Except.error SvcError.decode
  | ⟨DoOutcome.apiErr c es, _⟩ => Except.error (SvcError.api c es)

structure GroupsIndexOptions where
  Offset : Int
  Limit : Int
  Omit : List String
deriving DecidableEq

def GroupsIndexOptions.zero : GroupsIndexOptions := ⟨0, 0, []⟩

/-- Reduce an integer into the two's-complement `int64` range: Go's `int`
arithmetic wraps, so `options.Offset+1` overflows at `MaxInt64`. -/
def wrapInt64 (x : Int) : Int := (x + 2 ^ 63) % 2 ^ 64 - 2 ^ 63

/-- The query parameters built by `groupsService.Index`. The page number is
`options.Offset+1` computed with Go's wrapping 64-bit addition. -/
def groupsIndexParams (options : GroupsIndexOptions) : List (String × String) :=
  let ps : List (String × String) := []
  let ps := if options.Offset ≠ 0 then setParam ps "page" (intDecimal (wrapInt64 (options.Offset + 1))) else ps
  let ps := if options.Limit ≠ 0 then setParam ps "per_page" (intDecimal options.Limit) else ps
  if options.Omit.length > 0 then setParam ps "omit" (String.intercalate "," options.Omit) else ps

/-- The envelope `struct { Groups []Group `json:"response"` }`. -/
def decodeGroupsEnv : Json → Option (List Group)
  | Json.null => some []
  | Json.obj fs => fieldD fs "response" [] (decodeArr decodeGroup)
  | _ => none

/-- `groupsService.Index`. -/
def groupsIndex (accessToken : String) (net : Net)
    (options : Option GroupsIndexOptions) : Except SvcError (List Group) :=
  let options := options.getD GroupsIndexOptions.zero
  let req : Request :=
    { method := "GET", url := BaseURL ++ "/groups",
      query := groupsIndexParams options, header := [], body := none }
  match runDo accessToken net req with
  | Except.error e => Except.error e
  | Except.ok resp =>
    match resp.body with
    | none => Except.error SvcError.decode
    | some j =>
      match decodeGroupsEnv j with
      | none => Except.error SvcError.decode
      | some gs => Except.ok gs

/-- The envelope `struct { Group Group `json:"response"` }`. -/
def decodeGroupEnv : Json → Option Group
  | Json.null => some Group.zero
  | Json.obj fs => fieldD fs "response" Group.zero decodeGroup
  | _ => none

/-- The local validation performed by `groupsService.Create` (string length
is byte length, as Go's `len`). -/
def createValidate (g : Group) : Option String :=
  if g.Name = "" then some "GroupsService.Create: group name is required"
  else if g.Name.utf8ByteSize > 140 then
    some "GroupsService.Create: group name length maximum is 140 characters"
  else if g.Description.utf8ByteSize > 255 then
    some "GroupsService.Create: group description length maximum is 255 characters"
  else none

/-- The local validation performed by `groupsService.Update`. -/
def updateValidate (g : Group) : Option String :=
  if g.Name = "" then some "GroupsService.Update: group name is required"
  else if g.Name.utf8ByteSize > 140 then
    some "GroupsService.Update: group name length maximum is 140 characters"
  else if g.Description.utf8ByteSize > 255 then
    some "GroupsService.Update: group description length maximum is 255 characters"
  else none

/-- `groupsService.Create`. -/
def groupsCreate (accessToken : String) (net : Net) (g : Group) :
    Except SvcError Group :=
  match createValidate g with
  | some m => Except.error (SvcError.validation m)
  | none =>
    let req : Request :=
      { method := "POST", url := BaseURL ++ "/groups", query := [],
        header := [], body := some (encodeGroup g) }
    match runDo accessToken net req with
    | Except.error e => Except.error e
    | Except.ok resp =>
      match resp.body with
      | none => Except.error SvcError.decode
      | some j =>
        match decodeGroupEnv j with
        | none => Except.error SvcError.decode
        | some grp => Except.ok grp

/-- `groupsService.Update`. -/
def groupsUpdate (accessToken : String) (net : Net) (id : String) (g : Group) :
    Except SvcError Group :=
  match updateValidate g with
  | some m => Except.error (SvcError.validation m)
  | none =>
    let req : Request :=
      { method := "POST", url := BaseURL ++ "/groups/" ++ id ++ "/update",
        query := [], header := [], body := some (encodeGroup g) }
    match runDo accessToken net req with
    | Except.error e => Except.error e
    | Except.ok resp =>
      match resp.body with
      | none => Except.error SvcError.decode
      | some j =>
        match decodeGroupEnv j with
        | none => Except.error SvcError.decode
        | some grp => Except.ok grp

/-- The doubly nested envelope
`struct { Response struct { Group Group `json:"group"` } `json:"response"` }`
used by `Join` and `Rejoin`. -/
def decodeJoinEnvInner : Json → Option Group
  | Json.null => some Group.zero
  | Json.obj fs => fieldD fs "group" Group.zero decodeGroup
  | _ => none

def decodeJoinEnv : Json → Option Group
  | Json.null => some Group.zero
  | Json.obj fs => fieldD fs "response" Group.zero decodeJoinEnvInner
  | _ => none

/-- `groupsService.Join`. -/
def groupsJoin (accessToken : String) (net : Net) (id shareToken : String) :
    Except SvcError Group :=
  let req : Request :=
    { method := "POST",
      url := BaseURL ++ "/groups/" ++ id ++ "/join/" ++ shareToken,
      query := [], header := [], body := none }
  match runDo accessToken net req with
  | Except.error e => Except.error e
  | Except.ok resp =>
    match resp.body with
    | none => Except.error SvcError.decode
    | some j =>
      match decodeJoinEnv j with
      | none => Except.error SvcError.decode
      | some grp => Except.ok grp

/-- `groupsService.Rejoin`. -/
def groupsRejoin (accessToken : String) (net : Net) (id : String) :
    Except SvcError Group :=
  let req : Request :=
    { method := "POST", url := BaseURL ++ "/groups/join",
      query := setParam [] "group_id" id, header := [], body := none }
  match runDo accessToken net req with
  | Except.error e => Except.error e
  | Except.ok resp =>
    match resp.body with
    | none => Except.error SvcError.decode
    | some j =>
      match decodeJoinEnv j with
      | none => Except.error SvcError.decode
      | some grp => Except.ok grp

structure MessagesIndexOptions where
  BeforeID : String
  SinceID : String
  AfterID : String
  Limit : Int
deriving DecidableEq

def MessagesIndexOptions.zero : MessagesIndexOptions := ⟨"", "", "", 0⟩

/-- The cursor parameters (`before_id`, `since_id`, `after_id`) set by
`messagesService.Index`. -/
def messagesIndexCursor (options : MessagesIndexOptions) : List (String × String) :=
  let ps : List (String × String) := []
  let ps := if options.BeforeID ≠ "" then setParam ps "before_id" options.BeforeID else ps
  let ps := if options.SinceID ≠ "" then setParam ps "since_id" options.SinceID else ps
  if options.AfterID ≠ "" then setParam ps "after_id" options.AfterID else ps

/-- The query-parameter building (with local limit validation) performed by
`messagesService.Index` before the request is sent. -/
def messagesIndexParams (options : MessagesIndexOptions) :
    Except String (List (String × String)) :=
  if options.Limit ≠ 0 then
    if options.Limit > 100 then Except.error "MessagesService.Index: page limit maximum is 100"
    else Except.ok (setParam (messagesIndexCursor options) "limit" (intDecimal options.Limit))
  else Except.ok (messagesIndexCursor options)

/-- The envelope
`struct { Response struct { Count int; Messages []Message } `json:"response"` }`. -/
def decodeMessagesEnvInner : Json → Option (List Message)
  | Json.null => some []
  | Json.obj fs => do
    let _ ← fieldD fs "count" 0 decodeInt64
    fieldD fs "messages" [] (decodeArr decodeMessage)
  | _ => none

def decodeMessagesEnv : Json → Option (List Message)
  | Json.null => some []
  | Json.obj fs => fieldD fs "response" [] decodeMessagesEnvInner
  | _ => none

/-- `messagesService.Index`. -/
def messagesIndex (accessToken : String) (net : Net) (groupID : String)
    (options : Option MessagesIndexOptions) : Except SvcError (List Message) :=
  let options := options.getD MessagesIndexOptions.zero
  match messagesIndexParams options with
  | Except.error m => Except.error (SvcError.validation m)
  | Except.ok ps =>
    let req : Request :=
      { method := "GET", url := BaseURL ++ "/groups/" ++ groupID ++ "/messages",
        query := ps, header := [], body := none }
    match runDo accessToken net req with
    | Except.error e => Except.error e
    | Except.ok resp =>
      match resp.body with
      | none => Except.error SvcError.decode
      | some j =>
        match decodeMessagesEnv j with
        | none => Except.error SvcError.decode
        | some ms => Except.ok ms

/-! ## Helper lemmas: parameter maps -/

theorem find?_filter_ne_none (l : List (String × String)) (k : String) :
    (l.filter (fun p => p.1 != k)).find? (fun p => p.1 == k) = none := by
  rw [List.find?_eq_none]
  intro x hx
  have hne := (List.mem_filter.mp hx).2
  simp only [bne_iff_ne, ne_eq] at hne
  simpa using hne

theorem getParam_setParam_self (ps : List (String × String)) (k v : String) :
    getParam (setParam ps k v) k = some v := by
  unfold getParam setParam
  rw [List.find?_append, find?_filter_ne_none]
  simp

theorem find?_filter_ne (l : List (String × String)) (k k' : String) (h : k' ≠ k) :
    (l.filter (fun p => p.1 != k)).find? (fun p => p.1 == k') =
      l.find? (fun p => p.1 == k') := by
  induction l with
  | nil => rfl
  | cons p l ih =>
    by_cases hp : p.1 = k
    · have h1 : (p.1 != k) = false := by simp [hp]
      have h2 : (p.1 == k') = false := by
        simp only [beq_eq_false_iff_ne, ne_eq, hp]
        exact fun e => h e.symm
      simp [List.filter_cons, h1, h2, ih]
    · have h1 : (p.1 != k) = true := by simp [hp]
      by_cases hp' : p.1 = k'
      · have h2 : (p.1 == k') = true := by simp [hp']
        simp [List.filter_cons, h1, List.find?_cons, h2]
      · have h2 : (p.1 == k') = false := by simp [hp']
        simp [List.filter_cons, h1, h2, ih]

theorem getParam_setParam_ne (ps : List (String × String)) (k v k' : String)
    (h : k' ≠ k) : getParam (setParam ps k v) k' = getParam ps k' := by
  unfold getParam setParam
  rw [List.find?_append, find?_filter_ne _ _ _ h]
  cases hf : ps.find? (fun p => p.1 == k') with
  | some p => simp
  | none =>
    have h2 : (k == k') = false := by
      simp only [beq_eq_false_iff_ne, ne_eq]
      exact fun e => h e.symm
    simp [h2, Option.or]

theorem getParam_ite (c : Prop) [Decidable c] (ps : List (String × String))
    (k v k' : String) (h : k' ≠ k) :
    getParam (if c then setParam ps k v else ps) k' = getParam ps k' := by
  split
  · exact getParam_setParam_ne _ _ _ _ h
  · rfl

theorem getParam_nil (k : String) : getParam [] k = none := rfl

theorem wrapInt64_of_range (x : Int) (h1 : -(2 ^ 63) ≤ x) (h2 : x < 2 ^ 63) :
    wrapInt64 x = x := by
  unfold wrapInt64
  omega

theorem getParam_messagesIndexCursor_limit (o : MessagesIndexOptions) :
    getParam (messagesIndexCursor o) "limit" = none := by
  simp only [messagesIndexCursor]
  rw [getParam_ite _ _ _ _ _ (by decide), getParam_ite _ _ _ _ _ (by decide),
    getParam_ite _ _ _ _ _ (by decide)]
  rfl

/-! ## Helper lemmas: JSON object field lookup -/

theorem getField_cons (k' : String) (v : Json) (l : List (String × Json)) (k : String) :
    getField ((k', v) :: l) k = (getField l k).or (if k' == k then some v else none) := by
  simp only [getField]
  cases getField l k <;> simp [Option.or]

theorem getField_append (l₁ l₂ : List (String × Json)) (k : String) :
    getField (l₁ ++ l₂) k = (getField l₂ k).or (getField l₁ k) := by
  induction l₁ with
  | nil => simp [getField]
  | cons p l₁ ih =>
    obtain ⟨k', v⟩ := p
    rw [List.cons_append, getField_cons, getField_cons, ih, Option.or_assoc]

theorem getField_optField_self (k : String) (b : Bool) (v : Json) :
    getField (optField k b v) k = if b then some v else none := by
  cases b <;> simp [optField, getField]

theorem getField_optField_ne (k k' : String) (b : Bool) (v : Json) (h : k' ≠ k) :
    getField (optField k b v) k' = none := by
  have hk : (k == k') = false := by
    simp only [beq_eq_false_iff_ne, ne_eq]
    exact fun e => h e.symm
  cases b <;> simp [optField, getField, hk]

/-! ## Helper lemmas: list decoding -/

theorem decodeList_map {α : Type} (dec : Json → Option α) (enc : α → Json)
    (xs : List α) (h : ∀ x ∈ xs, dec (enc x) = some x) :
    decodeList dec (xs.map enc) = some xs := by
  induction xs with
  | nil => rfl
  | cons x xs ih =>
    have hx := h x (by simp)
    have ht := ih (fun y hy => h y (by simp [hy]))
    simp [decodeList, hx, ht]

theorem decodeArr_map {α : Type} (dec : Json → Option α) (enc : α → Json)
    (xs : List α) (h : ∀ x ∈ xs, dec (enc x) = some x) :
    decodeArr dec (Json.arr (xs.map enc)) = some xs := by
  simpa [decodeArr] using decodeList_map dec enc xs h

theorem decodeStrList_map (xs : List String) :
    decodeArr decodeString (Json.arr (xs.map Json.str)) = some xs :=
  decodeArr_map _ _ _ (fun _ _ => rfl)

theorem decodeIntList_map (xs : List Int) (h : ∀ i ∈ xs, int64ok i = true) :
    decodeArr decodeInt64 (Json.arr (xs.map Json.num)) = some xs :=
  decodeArr_map _ _ _ (fun i hi => by simp [decodeInt64, h i hi])

theorem decodeLoci_map (ll : List (List Int))
    (h : ∀ l ∈ ll, ∀ i ∈ l, int64ok i = true) :
    decodeArr (decodeArr decodeInt64)
      (Json.arr (ll.map (fun l => Json.arr (l.map Json.num)))) = some ll :=
  decodeArr_map _ _ _ (fun l hl => decodeIntList_map l (h l hl))

theorem decodeNatList_map (xs : List Nat) (h : ∀ i ∈ xs, uint64ok i = true) :
    decodeArr decodeUInt64 (Json.arr (xs.map (fun n => Json.num (Int.ofNat n)))) = some xs := by
  apply decodeArr_map
  intro i hi
  have hb := h i hi
  simp only [uint64ok, decide_eq_true_eq] at hb
  have h2 : ((i : Int) < 2 ^ 64) := by exact_mod_cast hb
  simp [decodeUInt64, h2]
  omega

theorem decodeCharmap_map (ll : List (List Nat))
    (h : ∀ l ∈ ll, ∀ i ∈ l, uint64ok i = true) :
    decodeArr (decodeArr decodeUInt64)
      (Json.arr (ll.map (fun l => Json.arr (l.map (fun n => Json.num (Int.ofNat n)))))) = some ll :=
  decodeArr_map _ _ _ (fun l hl => decodeNatList_map l (h l hl))

/-! ## Round-trips of the struct codecs -/

theorem decodeMember_encodeMember (m : Member) :
    decodeMember (encodeMember m) = some m := by
  simp [encodeMember, decodeMember, fieldD, getField, decodeString, decodeBool]

theorem getField_attFields_type (a : Attachment) :
    getField (attachmentFields a) "type" = some (Json.str a.Type') := by
  simp [attachmentFields, getField_append, getField_optField_ne, getField,
    Option.or_none, Option.none_or]

theorem getField_attFields_url (a : Attachment) :
    getField (attachmentFields a) "url" =
      if (a.URL != "") = true then some (Json.str a.URL) else none := by
  simp [attachmentFields, getField_append, getField_optField_ne,
    getField_optField_self, getField, Option.or_none, Option.none_or]
  all_goals (split <;> simp_all)

theorem getField_attFields_lat (a : Attachment) :
    getField (attachmentFields a) "lat" =
      if (a.Lat != "") = true then some (Json.str a.Lat) else none := by
  simp [attachmentFields, getField_append, getField_optField_ne,
    getField_optField_self, getField, Option.or_none, Option.none_or]
  all_goals (split <;> simp_all)

theorem getField_attFields_lng (a : Attachment) :
    getField (attachmentFields a) "lng" =
      if (a.Lng != "") = true then some (Json.str a.Lng) else none := by
  simp [attachmentFields, getField_append, getField_optField_ne,
    getField_optField_self, getField, Option.or_none, Option.none_or]
  all_goals (split <;> simp_all)

theorem getField_attFields_name (a : Attachment) :
    getField (attachmentFields a) "name" =
      if (a.Name != "") = true then some (Json.str a.Name) else none := by
  simp [attachmentFields, getField_append, getField_optField_ne,
    getField_optField_self, getField, Option.or_none, Option.none_or]
  all_goals (split <;> simp_all)

theorem getField_attFields_loci (a : Attachment) :
    getField (attachmentFields a) "loci" =
      if (!a.Loci.isEmpty) = true then
        some (Json.arr (a.Loci.map (fun l => Json.arr (l.map Json.num))))
      else none := by
  simp [attachmentFields, getField_append, getField_optField_ne,
    getField_optField_self, getField, Option.or_none, Option.none_or]
  all_goals (split <;> simp_all)

theorem getField_attFields_user_ids (a : Attachment) :
    getField (attachmentFields a) "user_ids" =
      if (!a.UserIDs.isEmpty) = true then
        some (Json.arr (a.UserIDs.map Json.str))
      else none := by
  simp [attachmentFields, getField_append, getField_optField_ne,
    getField_optField_self, getField, Option.or_none, Option.none_or]
  all_goals (split <;> simp_all)

theorem getField_attFields_token (a : Attachment) :
    getField (attachmentFields a) "token" =
      if (a.Token != "") = true then some (Json.str a.Token) else none := by
  simp [attachmentFields, getField_append, getField_optField_ne,
    getField_optField_self, getField, Option.or_none, Option.none_or]
  all_goals (split <;> simp_all)

theorem getField_attFields_placeholder (a : Attachment) :
    getField (attachmentFields a) "placeholder" =
      if (a.Placeholder != "") = true then some (Json.str a.Placeholder) else none := by
  simp [attachmentFields, getField_append, getField_optField_ne,
    getField_optField_self, getField, Option.or_none, Option.none_or]
  all_goals (split <;> simp_all)

theorem getField_attFields_charmap (a : Attachment) :
    getField (attachmentFields a) "charmap" =
      if (!a.Charmap.isEmpty) = true then
        some (Json.arr (a.Charmap.map (fun l => Json.arr (l.map (fun n => Json.num (Int.ofNat n))))))
      else none := by
  simp [attachmentFields, getField_append, getField_optField_ne,
    getField_optField_self, getField, Option.or_none, Option.none_or]
  all_goals (split <;> simp_all)

theorem fieldD_omit_str (fs : List (String × Json)) (k s : String)
    (hget : getField fs k = if (s != "") = true then some (Json.str s) else none) :
    fieldD fs k "" decodeString = some s := by
  unfold fieldD
  rw [hget]
  by_cases hs : s = ""
  · simp [hs]
  · simp [hs, decodeString]

theorem decodeAttachment_encodeAttachment (a : Attachment) (h : a.wf = true) :
    decodeAttachment (encodeAttachment a) = some a := by
  simp only [Attachment.wf, Bool.and_eq_true, List.all_eq_true] at h
  obtain ⟨hl, hc⟩ := h
  have hty : fieldD (attachmentFields a) "type" "" decodeString = some a.Type' := by
    unfold fieldD
    rw [getField_attFields_type]
    rfl
  have hurl := fieldD_omit_str _ _ _ (getField_attFields_url a)
  have hlat := fieldD_omit_str _ _ _ (getField_attFields_lat a)
  have hlng := fieldD_omit_str _ _ _ (getField_attFields_lng a)
  have hnm := fieldD_omit_str _ _ _ (getField_attFields_name a)
  have htok := fieldD_omit_str _ _ _ (getField_attFields_token a)
  have hph := fieldD_omit_str _ _ _ (getField_attFields_placeholder a)
  have hlo : fieldD (attachmentFields a) "loci" [] (decodeArr (decodeArr decodeInt64)) =
      some a.Loci := by
    unfold fieldD
    rw [getField_attFields_loci]
    by_cases he : a.Loci = []
    · simp [he]
    · have hne : (!a.Loci.isEmpty) = true := by simp [he]
      simp only [hne, if_true]
      exact decodeLoci_map a.Loci hl
  have hui : fieldD (attachmentFields a) "user_ids" [] (decodeArr decodeString) =
      some a.UserIDs := by
    unfold fieldD
    rw [getField_attFields_user_ids]
    by_cases he : a.UserIDs = []
    · simp [he]
    · have hne : (!a.UserIDs.isEmpty) = true := by simp [he]
      simp only [hne, if_true]
      exact decodeStrList_map a.UserIDs
  have hcmf : fieldD (attachmentFields a) "charmap" [] (decodeArr (decodeArr decodeUInt64)) =
      some a.Charmap := by
    unfold fieldD
    rw [getField_attFields_charmap]
    by_cases he : a.Charmap = []
    · simp [he]
    · have hne : (!a.Charmap.isEmpty) = true := by simp [he]
      simp only [hne, if_true]
      exact decodeCharmap_map a.Charmap hc
  simp [encodeAttachment, decodeAttachment, hty, hurl, hlat, hlng, hnm, htok,
    hph, hlo, hui, hcmf]

theorem decodePreview_encodePreview (p : Preview) (h : p.wf = true) :
    decodePreview (encodePreview p) = some p := by
  simp only [Preview.wf, List.all_eq_true] at h
  have ha : decodeArr decodeAttachment (Json.arr (p.Attachments.map encodeAttachment)) =
      some p.Attachments :=
    decodeArr_map _ _ _ (fun a haa => decodeAttachment_encodeAttachment a (h a haa))
  simp [encodePreview, decodePreview, fieldD, getField, decodeString, ha]

theorem decodeMessages_encodeMessages (m : Messages) (h : m.wf = true) :
    decodeMessages (encodeMessages m) = some m := by
  simp only [Messages.wf, Bool.and_eq_true] at h
  obtain ⟨⟨hcnt, hts⟩, hpv⟩ := h
  have hp := decodePreview_encodePreview m.Preview hpv
  simp only [uint64ok, decide_eq_true_eq] at hcnt
  have hcnt2 : (0 ≤ (m.Count : Int) ∧ (m.Count : Int) < 2 ^ 64) :=
    ⟨Int.natCast_nonneg _, by exact_mod_cast hcnt⟩
  have hcnt3 : m.Count < 18446744073709551616 := by omega
  simp [encodeMessages, decodeMessages, fieldD, getField, decodeString,
    decodeUInt64, decodeUnixTime, hp, hcnt2, hcnt3, hts]

theorem decodeGroup_encodeGroup (g : Group) (h : g.wf = true) :
    decodeGroup (encodeGroup g) = some g := by
  simp only [Group.wf, Bool.and_eq_true] at h
  obtain ⟨⟨hca, hua⟩, hms⟩ := h
  have hm := decodeMessages_encodeMessages g.Messages hms
  have hmem : decodeArr decodeMember (Json.arr (g.Members.map encodeMember)) =
      some g.Members :=
    decodeArr_map _ _ _ (fun m _ => decodeMember_encodeMember m)
  simp [encodeGroup, decodeGroup, fieldD, getField, decodeString,
    decodeUnixTime, hca, hua, hm, hmem]

/-! ## Lemmas: decimal formatting and parsing -/

theorem parseDigits_append (l₁ l₂ : List Char) (acc : Nat) :
    parseDigits (l₁ ++ l₂) acc =
      match parseDigits l₁ acc with
      | none => none
      | some a => parseDigits l₂ a := by
  induction l₁ generalizing acc with
  | nil => rfl
  | cons c cs ih =>
    simp only [List.cons_append, parseDigits]
    cases digitVal c with
    | none => rfl
    | some d => simp [ih]

theorem digitVal_digitChar (r : Nat) (h : r < 10) :
    digitVal (Nat.digitChar r) = some r ∧
      Nat.digitChar r ≠ '-' ∧ Nat.digitChar r ≠ '+' := by
  interval_cases r <;> exact ⟨by decide, by decide, by decide⟩

theorem parseDigits_digitsLE (fuel : Nat) :
    ∀ n acc, n ≤ fuel →
      parseDigits (digitsLE fuel n).reverse acc =
        some (acc * 10 ^ (digitsLE fuel n).length + n) := by
  induction fuel with
  | zero =>
    intro n acc h
    have h0 : n = 0 := Nat.le_zero.mp h
    subst h0
    simp [digitsLE, parseDigits]
  | succ fuel ih =>
    intro n acc h
    by_cases h0 : n = 0
    · subst h0
      simp [digitsLE, parseDigits]
    · have hrec : n / 10 ≤ fuel := by omega
      have hd := digitVal_digitChar (n % 10) (Nat.mod_lt _ (by norm_num))
      simp only [digitsLE, h0, if_false, List.reverse_cons, List.length_cons]
      rw [parseDigits_append, ih _ acc hrec]
      simp only [parseDigits, hd.1]
      have hmod : 10 * (n / 10) + n % 10 = n := Nat.div_add_mod n 10
      have harith :
          (acc * 10 ^ (digitsLE fuel (n / 10)).length + n / 10) * 10 + n % 10 =
            acc * 10 ^ ((digitsLE fuel (n / 10)).length + 1) + n := by
        rw [pow_succ]
        calc (acc * 10 ^ (digitsLE fuel (n / 10)).length + n / 10) * 10 + n % 10
            = acc * (10 ^ (digitsLE fuel (n / 10)).length * 10) +
                (10 * (n / 10) + n % 10) := by ring
          _ = acc * (10 ^ (digitsLE fuel (n / 10)).length * 10) + n := by rw [hmod]
      rw [harith]

theorem digitsLE_ne_nil (fuel n : Nat) (h0 : n ≠ 0) (h : n ≤ fuel) :
    digitsLE fuel n ≠ [] := by
  cases fuel with
  | zero => omega
  | succ fuel => simp [digitsLE, h0]

theorem digitsLE_mem (fuel : Nat) :
    ∀ n c, c ∈ digitsLE fuel n → ∃ r, r < 10 ∧ c = Nat.digitChar r := by
  induction fuel with
  | zero => intro n c hc; simp [digitsLE] at hc
  | succ fuel ih =>
    intro n c hc
    by_cases h0 : n = 0
    · subst h0; simp [digitsLE] at hc
    · simp only [digitsLE, h0, if_false, List.mem_cons] at hc
      cases hc with
      | inl h => exact ⟨n % 10, Nat.mod_lt _ (by norm_num), h⟩
      | inr h => exact ih _ _ h

theorem parseDigits_natDecimal (n : Nat) :
    parseDigits (natDecimal n).data 0 = some n := by
  by_cases h0 : n = 0
  · subst h0
    simp [natDecimal, parseDigits, digitVal]
  · simp only [natDecimal, h0, if_false]
    have h := parseDigits_digitsLE n n 0 le_rfl
    simpa using h

theorem parseDigits_eq_none (l : List Char) (c : Char) (hc : c ∈ l)
    (hd : digitVal c = none) : ∀ acc, parseDigits l acc = none := by
  induction l with
  | nil => simp at hc
  | cons x xs ih =>
    intro acc
    rcases List.mem_cons.mp hc with h | h
    · subst h
      simp [parseDigits, hd]
    · cases hx : digitVal x with
      | none => simp [parseDigits, hx]
      | some d => simp [parseDigits, hx, ih h]

theorem stringMk_data (l : List Char) : (String.mk l).data = l := rfl

theorem parseSigned_none (neg : Bool) (ds : List Char)
    (h : (!ds.isEmpty && ds.all (fun d => decide ('0' ≤ d) && decide (d ≤ '9'))) = false) :
    parseSigned neg ds = none := by
  cases ds with
  | nil => cases neg <;> rfl
  | cons c cs =>
    simp only [List.isEmpty_cons, Bool.not_false, Bool.true_and] at h
    rw [List.all_eq_false] at h
    obtain ⟨d, hd, hdp⟩ := h
    have hdv : digitVal d = none := by
      unfold digitVal
      rw [if_neg]
      simpa [Bool.and_eq_true, decide_eq_true_eq] using hdp
    simp [parseSigned, parseDigits_eq_none _ _ hd hdv]

theorem parseInt64_cons (c : Char) (rest : List Char) :
    parseInt64 (String.mk (c :: rest)) =
      if c = '-' then parseSigned true rest
      else if c = '+' then parseSigned false rest
      else parseSigned false (c :: rest) := rfl

theorem parseInt64_intDecimal (n : Int) (h1 : -(2 ^ 63) ≤ n) (h2 : n < 2 ^ 63) :
    parseInt64 (intDecimal n) = some n := by
  by_cases hneg : n < 0
  · have habs0 : n.natAbs ≠ 0 := by omega
    have hne := digitsLE_ne_nil n.natAbs n.natAbs habs0 le_rfl
    have hrevne : (digitsLE n.natAbs n.natAbs).reverse ≠ [] := by simpa using hne
    obtain ⟨c, rest, hrev⟩ := List.exists_cons_of_ne_nil hrevne
    have hparse : parseDigits (digitsLE n.natAbs n.natAbs).reverse 0 = some n.natAbs := by
      simpa using parseDigits_digitsLE n.natAbs n.natAbs 0 le_rfl
    have hs1 : intDecimal n = String.mk ('-' :: (digitsLE n.natAbs n.natAbs).reverse) := by
      simp [intDecimal, hneg]
    rw [hs1, parseInt64_cons, if_pos rfl, hrev]
    simp only [parseSigned]
    rw [← hrev]
    have hle : n.natAbs ≤ 2 ^ 63 := by omega
    simp [hparse, hle, abs_of_neg hneg]
    omega
  · by_cases h0 : n = 0
    · subst h0
      decide
    · have ht0 : n.toNat ≠ 0 := by omega
      have hne := digitsLE_ne_nil n.toNat n.toNat ht0 le_rfl
      have hrevne : (digitsLE n.toNat n.toNat).reverse ≠ [] := by simpa using hne
      obtain ⟨c, rest, hrev⟩ := List.exists_cons_of_ne_nil hrevne
      have hcdig : ∃ r, r < 10 ∧ c = Nat.digitChar r := by
        apply digitsLE_mem n.toNat n.toNat
        have hcmem : c ∈ (digitsLE n.toNat n.toNat).reverse := by
          rw [hrev]; exact List.mem_cons_self _ _
        simpa using hcmem
      obtain ⟨r, hr, hcr⟩ := hcdig
      have hprops := digitVal_digitChar r hr
      have hcminus : c ≠ '-' := by rw [hcr]; exact hprops.2.1
      have hcplus : c ≠ '+' := by rw [hcr]; exact hprops.2.2
      have hparse : parseDigits (digitsLE n.toNat n.toNat).reverse 0 = some n.toNat := by
        simpa using parseDigits_digitsLE n.toNat n.toNat 0 le_rfl
      have hs1 : intDecimal n = String.mk (digitsLE n.toNat n.toNat).reverse := by
        simp [intDecimal, hneg, natDecimal, ht0]
      rw [hs1, hrev, parseInt64_cons, if_neg hcminus, if_neg hcplus]
      simp only [parseSigned]
      rw [← hrev]
      have hlt : n.toNat < 2 ^ 63 := by omega
      simp [hparse, hlt]
      omega

theorem parseInt64_none_of_not_signedDecimal (s : String)
    (h : isSignedDecimal s = false) : parseInt64 s = none := by
  rcases hs : s.data with _ | ⟨c, rest⟩
  · simp [parseInt64, hs]
  · simp only [isSignedDecimal, hs] at h
    by_cases hm : c = '-'
    · simp only [hm, if_pos rfl] at h
      simp only [parseInt64, hs, hm, if_pos rfl]
      exact parseSigned_none true rest h
    · by_cases hp : c = '+'
      · simp only [hm, if_false, hp, if_pos rfl] at h
        simp only [parseInt64, hs, if_neg hm, hp, if_pos rfl]
        exact parseSigned_none false rest h
      · simp only [hm, hp, if_false] at h
        simp only [parseInt64, hs, if_neg hm, if_neg hp]
        exact parseSigned_none false (c :: rest) h

/-! ## Claim theorems -/

/-- C1: for every HTTP response with status code ≥ 400, `client.Do` parses
the body as the `Error` envelope; if that parse fails `Do` returns the
decode error, otherwise it returns an `ApiError` carrying exactly the
numeric code and the ordered message list of the envelope's `meta`. -/
theorem clientDo_error_envelope (tok : String) (req : Request) (net : Net)
    (resp : HttpResponse) (hnet : net (prepareRequest tok req) = Except.ok resp)
    (hst : 400 ≤ resp.statusCode) :
    (resp.body.bind decodeError = none →
      (clientDo tok net req).outcome = DoOutcome.decodeErr) ∧
    (∀ e : Error, resp.body.bind decodeError = some e →
      (clientDo tok net req).outcome = DoOutcome.apiErr e.Meta.Code e.Meta.Errors) := by
  constructor
  · intro hd
    simp [clientDo, hnet, hst, hd]
  · intro e hd
    simp [clientDo, hnet, hst, hd]

/-- Witness for C1: a simulated 404 response with body
`{"meta":{"code":404,"errors":["not found"]}}` produces an `ApiError`
with code 404 and message list `["not found"]`. -/
theorem clientDo_error_envelope_witness :
    (clientDo "tok"
      (fun _ => Except.ok ⟨404, some (Json.obj [("meta",
        Json.obj [("code", Json.num 404), ("errors", Json.arr [Json.str "not found"])])])⟩)
      ⟨"GET", BaseURL ++ "/groups", [], [], none⟩).outcome =
      DoOutcome.apiErr 404 ["not found"] := by
  exact (clientDo_error_envelope "tok" ⟨"GET", BaseURL ++ "/groups", [], [], none⟩
    (fun _ => Except.ok ⟨404, some (Json.obj [("meta",
      Json.obj [("code", Json.num 404), ("errors", Json.arr [Json.str "not found"])])])⟩)
    ⟨404, some (Json.obj [("meta",
      Json.obj [("code", Json.num 404), ("errors", Json.arr [Json.str "not found"])])])⟩
    rfl (by norm_num)).2 ⟨⟨404, ["not found"]⟩⟩ rfl

/-- C2 (counterexample to the claim as stated): Go's `int` addition wraps,
so at `Offset = MaxInt64` — a nonzero, Go-representable offset — the program
sends `page` equal to the decimal of `MinInt64`, not the decimal of
`Offset + 1`. -/
theorem groupsIndex_pagination_counterexample :
    (2 ^ 63 - 1 : Int) ≠ 0 ∧
    getParam (groupsIndexParams ⟨2 ^ 63 - 1, 0, []⟩) "page" =
      some "-9223372036854775808" ∧
    intDecimal ((2 ^ 63 - 1 : Int) + 1) = "9223372036854775808" := by
  refine ⟨by decide, ?_, by decide⟩
  decide

/-- C2 (amended): `groupsService.Index` sends, exactly when the offset is
nonzero, `page` = the decimal of `Offset + 1` computed with Go's wrapping
64-bit addition — which equals `Offset + 1` for every nonzero `int64` offset
other than `MaxInt64` — and sends `per_page = Limit` exactly when the limit
is nonzero. -/
theorem groupsIndex_pagination (o : GroupsIndexOptions) :
    (o.Offset ≠ 0 →
      getParam (groupsIndexParams o) "page" =
        some (intDecimal (wrapInt64 (o.Offset + 1)))) ∧
    (o.Offset ≠ 0 → -(2 ^ 63) ≤ o.Offset → o.Offset < 2 ^ 63 - 1 →
      getParam (groupsIndexParams o) "page" = some (intDecimal (o.Offset + 1))) ∧
    (o.Offset = 0 → getParam (groupsIndexParams o) "page" = none) ∧
    (o.Limit ≠ 0 →
      getParam (groupsIndexParams o) "per_page" = some (intDecimal o.Limit)) ∧
    (o.Limit = 0 → getParam (groupsIndexParams o) "per_page" = none) := by
  have hpage : o.Offset ≠ 0 →
      getParam (groupsIndexParams o) "page" =
        some (intDecimal (wrapInt64 (o.Offset + 1))) := by
    intro ho
    simp only [groupsIndexParams]
    rw [getParam_ite _ _ _ _ _ (by decide), getParam_ite _ _ _ _ _ (by decide),
      if_pos ho]
    exact getParam_setParam_self _ _ _
  refine ⟨hpage, ?_, ?_, ?_, ?_⟩
  · intro ho hlo hhi
    rw [hpage ho, wrapInt64_of_range (o.Offset + 1) (by omega) (by omega)]
  · intro ho
    simp only [groupsIndexParams]
    rw [getParam_ite _ _ _ _ _ (by decide), getParam_ite _ _ _ _ _ (by decide),
      if_neg (by simp [ho])]
    rfl
  · intro hl
    simp only [groupsIndexParams]
    rw [getParam_ite _ _ _ _ _ (by decide), if_pos hl]
    exact getParam_setParam_self _ _ _
  · intro hl
    simp only [groupsIndexParams]
    rw [getParam_ite _ _ _ _ _ (by decide), if_neg (by simp [hl]),
      getParam_ite _ _ _ _ _ (by decide)]
    rfl

/-- Witness for C2: offset 2 and limit 10 yield exactly `page=3` and
`per_page=10`; the zero options yield neither parameter. -/
theorem groupsIndex_pagination_witness :
    getParam (groupsIndexParams ⟨2, 10, []⟩) "page" = some "3" ∧
    getParam (groupsIndexParams ⟨2, 10, []⟩) "per_page" = some "10" ∧
    groupsIndexParams ⟨2, 10, []⟩ = [("page", "3"), ("per_page", "10")] ∧
    getParam (groupsIndexParams ⟨0, 0, []⟩) "page" = none ∧
    getParam (groupsIndexParams ⟨0, 0, []⟩) "per_page" = none := by
  refine ⟨?_, ?_, by decide, ?_, ?_⟩
  · exact ((groupsIndex_pagination ⟨2, 10, []⟩).2.1 (by decide) (by decide)
      (by decide)).trans (by decide)
  · exact ((groupsIndex_pagination ⟨2, 10, []⟩).2.2.2.1 (by decide)).trans (by decide)
  · exact (groupsIndex_pagination ⟨0, 0, []⟩).2.2.1 rfl
  · exact (groupsIndex_pagination ⟨0, 0, []⟩).2.2.2.2 rfl

/-- C3: a group with empty name, name longer than 140 bytes, or description
longer than 255 bytes makes `Create` and `Update` fail locally with the
validation message of the violated constraint, and the result does not
depend on the network (the transport is never invoked). -/
theorem groups_create_update_validation (g : Group)
    (h : g.Name = "" ∨ 140 < g.Name.utf8ByteSize ∨ 255 < g.Description.utf8ByteSize) :
    ∀ (tok id : String) (net net' : Net),
      (∃ m, createValidate g = some m ∧
        groupsCreate tok net g = Except.error (SvcError.validation m)) ∧
      (∃ m, updateValidate g = some m ∧
        groupsUpdate tok net id g = Except.error (SvcError.validation m)) ∧
      groupsCreate tok net g = groupsCreate tok net' g ∧
      groupsUpdate tok net id g = groupsUpdate tok net' id g := by
  intro tok id net net'
  have hc : ∃ m, createValidate g = some m := by
    unfold createValidate
    rcases h with h | h | h
    · exact ⟨_, by rw [if_pos h]⟩
    · by_cases h0 : g.Name = ""
      · exact ⟨_, by rw [if_pos h0]⟩
      · exact ⟨_, by rw [if_neg h0, if_pos (by omega)]⟩
    · by_cases h0 : g.Name = ""
      · exact ⟨_, by rw [if_pos h0]⟩
      · by_cases h1 : 140 < g.Name.utf8ByteSize
        · exact ⟨_, by rw [if_neg h0, if_pos (by omega)]⟩
        · exact ⟨_, by rw [if_neg h0, if_neg (by omega), if_pos (by omega)]⟩
  have hu : ∃ m, updateValidate g = some m := by
    unfold updateValidate
    rcases h with h | h | h
    · exact ⟨_, by rw [if_pos h]⟩
    · by_cases h0 : g.Name = ""
      · exact ⟨_, by rw [if_pos h0]⟩
      · exact ⟨_, by rw [if_neg h0, if_pos (by omega)]⟩
    · by_cases h0 : g.Name = ""
      · exact ⟨_, by rw [if_pos h0]⟩
      · by_cases h1 : 140 < g.Name.utf8ByteSize
        · exact ⟨_, by rw [if_neg h0, if_pos (by omega)]⟩
        · exact ⟨_, by rw [if_neg h0, if_neg (by omega), if_pos (by omega)]⟩
  obtain ⟨mc, hmc⟩ := hc
  obtain ⟨mu, hmu⟩ := hu
  refine ⟨⟨mc, hmc, ?_⟩, ⟨mu, hmu, ?_⟩, ?_, ?_⟩ <;>
    simp [groupsCreate, groupsUpdate, hmc, hmu]

set_option maxRecDepth 8192 in
/-- Witness for C3: a 141-character name fails `Create` and `Update`
locally with the name-length message, for two different networks. -/
theorem groups_create_update_validation_witness :
    (∃ m, createValidate ⟨"", String.mk (List.replicate 141 'a'), "", "", "", "",
        0, 0, [], "", Messages.zero⟩ = some m ∧
      groupsCreate "t" (fun _ => Except.error ())
        ⟨"", String.mk (List.replicate 141 'a'), "", "", "", "",
          0, 0, [], "", Messages.zero⟩ = Except.error (SvcError.validation m)) ∧
    (∃ m, updateValidate ⟨"", String.mk (List.replicate 141 'a'), "", "", "", "",
        0, 0, [], "", Messages.zero⟩ = some m ∧
      groupsUpdate "t" (fun _ => Except.error ()) "gid"
        ⟨"", String.mk (List.replicate 141 'a'), "", "", "", "",
          0, 0, [], "", Messages.zero⟩ = Except.error (SvcError.validation m)) ∧
    groupsCreate "t" (fun _ => Except.error ())
      ⟨"", String.mk (List.replicate 141 'a'), "", "", "", "",
        0, 0, [], "", Messages.zero⟩ =
      groupsCreate "t" (fun _ => Except.ok ⟨200, none⟩)
        ⟨"", String.mk (List.replicate 141 'a'), "", "", "", "",
          0, 0, [], "", Messages.zero⟩ ∧
    groupsUpdate "t" (fun _ => Except.error ()) "gid"
      ⟨"", String.mk (List.replicate 141 'a'), "", "", "", "",
        0, 0, [], "", Messages.zero⟩ =
      groupsUpdate "t" (fun _ => Except.ok ⟨200, none⟩) "gid"
        ⟨"", String.mk (List.replicate 141 'a'), "", "", "", "",
          0, 0, [], "", Messages.zero⟩ :=
  groups_create_update_validation _ (Or.inr (Or.inl (by decide))) "t" "gid"
    (fun _ => Except.error ()) (fun _ => Except.ok ⟨200, none⟩)

/-- C4: `messagesService.Index` rejects a limit above 100 locally (the
result does not depend on the network), sends `limit = Limit` for a limit
in 1..100, and sends no limit parameter for a zero limit. -/
theorem messagesIndex_limit_rules (o : MessagesIndexOptions) :
    (100 < o.Limit →
      messagesIndexParams o =
        Except.error "MessagesService.Index: page limit maximum is 100" ∧
      ∀ (tok gid : String) (net net' : Net),
        messagesIndex tok net gid (some o) =
          Except.error (SvcError.validation "MessagesService.Index: page limit maximum is 100") ∧
        messagesIndex tok net gid (some o) = messagesIndex tok net' gid (some o)) ∧
    (0 < o.Limit → o.Limit ≤ 100 →
      ∃ ps, messagesIndexParams o = Except.ok ps ∧
        getParam ps "limit" = some (intDecimal o.Limit)) ∧
    (o.Limit = 0 →
      ∃ ps, messagesIndexParams o = Except.ok ps ∧ getParam ps "limit" = none) := by
  refine ⟨?_, ?_, ?_⟩
  · intro hgt
    have hne : o.Limit ≠ 0 := by omega
    have hp : messagesIndexParams o =
        Except.error "MessagesService.Index: page limit maximum is 100" := by
      simp [messagesIndexParams, hne, hgt]
    refine ⟨hp, ?_⟩
    intro tok gid net net'
    constructor <;> simp [messagesIndex, hp]
  · intro hpos hle
    have hne : o.Limit ≠ 0 := by omega
    have hngt : ¬(o.Limit > 100) := by omega
    refine ⟨setParam (messagesIndexCursor o) "limit" (intDecimal o.Limit), ?_, ?_⟩
    · simp [messagesIndexParams, hne, hngt]
    · exact getParam_setParam_self _ _ _
  · intro h0
    refine ⟨messagesIndexCursor o, ?_, ?_⟩
    · simp [messagesIndexParams, h0]
    · exact getParam_messagesIndexCursor_limit o

/-- Witness for C4: limit 150 fails locally for two different networks;
limit 50 sends `limit=50`; limit 0 sends nothing. -/
theorem messagesIndex_limit_rules_witness :
    messagesIndexParams ⟨"", "", "", 150⟩ =
      Except.error "MessagesService.Index: page limit maximum is 100" ∧
    messagesIndex "t" (fun _ => Except.error ()) "gid" (some ⟨"", "", "", 150⟩) =
      Except.error (SvcError.validation "MessagesService.Index: page limit maximum is 100") ∧
    messagesIndex "t" (fun _ => Except.error ()) "gid" (some ⟨"", "", "", 150⟩) =
      messagesIndex "t" (fun _ => Except.ok ⟨200, none⟩) "gid" (some ⟨"", "", "", 150⟩) ∧
    (∃ ps, messagesIndexParams ⟨"", "", "", 50⟩ = Except.ok ps ∧
      getParam ps "limit" = some "50") ∧
    (∃ ps, messagesIndexParams ⟨"", "", "", 0⟩ = Except.ok ps ∧
      getParam ps "limit" = none) := by
  have h150 := (messagesIndex_limit_rules ⟨"", "", "", 150⟩).1 (by decide)
  have h50 := (messagesIndex_limit_rules ⟨"", "", "", 50⟩).2.1 (by decide) (by decide)
  have h0 := (messagesIndex_limit_rules ⟨"", "", "", 0⟩).2.2 rfl
  obtain ⟨ps, hps, hgp⟩ := h50
  refine ⟨h150.1, (h150.2 "t" "gid" (fun _ => Except.error ())
    (fun _ => Except.ok ⟨200, none⟩)).1, (h150.2 "t" "gid" (fun _ => Except.error ())
    (fun _ => Except.ok ⟨200, none⟩)).2, ⟨ps, hps, hgp.trans (by decide)⟩, h0⟩

/-- C5: `Join` and `Rejoin` unwrap the doubly nested envelope
`{"response":{"group": G}}` and return exactly the group `G`. -/
theorem join_rejoin_unwrap (g : Group) (hwf : g.wf = true) (st : Int)
    (hst : st < 400) :
    ∀ (tok id shareToken : String),
      groupsJoin tok (fun _ => Except.ok ⟨st, some (Json.obj [("response",
        Json.obj [("group", encodeGroup g)])])⟩) id shareToken = Except.ok g ∧
      groupsRejoin tok (fun _ => Except.ok ⟨st, some (Json.obj [("response",
        Json.obj [("group", encodeGroup g)])])⟩) id = Except.ok g := by
  intro tok id shareToken
  have hdec : decodeJoinEnv (Json.obj [("response",
      Json.obj [("group", encodeGroup g)])]) = some g := by
    simp [decodeJoinEnv, decodeJoinEnvInner, fieldD, getField,
      decodeGroup_encodeGroup g hwf]
  have hnot : ¬(400 ≤ st) := by omega
  constructor <;> simp [groupsJoin, groupsRejoin, runDo, clientDo, hnot, hdec]

/-- Witness for C5: the body
`{"response":{"group":{"id":"g1","name":"Test", ...}}}` makes `Join` return
the group with ID `g1` and name `Test`; additionally, the decoder applied to
the exact minimal body of the spec's example fills the remaining fields with
their zero values. -/
theorem join_rejoin_unwrap_witness :
    groupsJoin "tok" (fun _ => Except.ok ⟨200, some (Json.obj [("response",
      Json.obj [("group", encodeGroup
        ⟨"g1", "Test", "", "", "", "", 0, 0, [], "", Messages.zero⟩)])])⟩)
      "gid" "share" =
      Except.ok ⟨"g1", "Test", "", "", "", "", 0, 0, [], "", Messages.zero⟩ ∧
    groupsJoin "tok" (fun _ => Except.ok ⟨200, some (Json.obj [("response",
      Json.obj [("group", Json.obj [("id", Json.str "g1"),
        ("name", Json.str "Test")])])])⟩) "gid" "share" =
      Except.ok ⟨"g1", "Test", "", "", "", "", 0, 0, [], "", Messages.zero⟩ :=
  ⟨(join_rejoin_unwrap ⟨"g1", "Test", "", "", "", "", 0, 0, [], "", Messages.zero⟩
      (by decide) 200 (by decide) "tok" "gid" "share").1,
   rfl⟩

/-- C6: the `UnixTime` codec: decoding the encoding of the instant at epoch
second `n` recovers `n` (for every `n` in the `int64` range of the Go
implementation), and decoding any byte sequence that is not a base-10
signed integer fails with a parse error. -/
theorem unixTime_codec :
    (∀ n : Int, -(2 ^ 63) ≤ n → n < 2 ^ 63 →
      UnixTime.unmarshalJSON (UnixTime.marshalJSON n) = some n) ∧
    (∀ s : String, isSignedDecimal s = false → UnixTime.unmarshalJSON s = none) := by
  constructor
  · intro n h1 h2
    exact parseInt64_intDecimal n h1 h2
  · intro s hs
    exact parseInt64_none_of_not_signedDecimal s hs

/-- Witness for C6 at `n = -5` and at the malformed input `"12a"`. -/
theorem unixTime_codec_witness :
    UnixTime.unmarshalJSON (UnixTime.marshalJSON (-5)) = some (-5) ∧
    UnixTime.unmarshalJSON "12a" = none :=
  ⟨unixTime_codec.1 (-5) (by decide) (by decide),
   unixTime_codec.2 "12a" (by decide)⟩

/-- C7: each attachment type predicate returns true exactly when the `Type`
discriminator equals that variant's tag, and for an unrecognized tag all
five predicates return false. -/
theorem attachment_type_predicates (a : Attachment) :
    (a.IsTypeImage = true ↔ a.Type' = "image") ∧
    (a.IsTypeLocation = true ↔ a.Type' = "location") ∧
    (a.IsTypeMentions = true ↔ a.Type' = "mentions") ∧
    (a.IsTypeSplit = true ↔ a.Type' = "split") ∧
    (a.IsTypeEmoji = true ↔ a.Type' = "emoji") ∧
    (a.Type' ∉ (["image", "location", "mentions", "split", "emoji"] : List String) →
      a.IsTypeImage = false ∧ a.IsTypeLocation = false ∧ a.IsTypeMentions = false ∧
      a.IsTypeSplit = false ∧ a.IsTypeEmoji = false) := by
  refine ⟨by simp [Attachment.IsTypeImage], by simp [Attachment.IsTypeLocation],
    by simp [Attachment.IsTypeMentions], by simp [Attachment.IsTypeSplit],
    by simp [Attachment.IsTypeEmoji], ?_⟩
  intro h
  simp only [List.mem_cons, List.not_mem_nil, or_false, not_or] at h
  obtain ⟨h1, h2, h3, h4, h5⟩ := h
  simp [Attachment.IsTypeImage, Attachment.IsTypeLocation, Attachment.IsTypeMentions,
    Attachment.IsTypeSplit, Attachment.IsTypeEmoji, h1, h2, h3, h4, h5]

/-- Witness for C7: an attachment with the unrecognized tag `"video"` makes
all five predicates false. -/
theorem attachment_type_predicates_witness :
    Attachment.IsTypeImage ⟨"video", "", "", "", "", [], [], "", "", []⟩ = false ∧
    Attachment.IsTypeLocation ⟨"video", "", "", "", "", [], [], "", "", []⟩ = false ∧
    Attachment.IsTypeMentions ⟨"video", "", "", "", "", [], [], "", "", []⟩ = false ∧
    Attachment.IsTypeSplit ⟨"video", "", "", "", "", [], [], "", "", []⟩ = false ∧
    Attachment.IsTypeEmoji ⟨"video", "", "", "", "", [], [], "", "", []⟩ = false :=
  (attachment_type_predicates ⟨"video", "", "", "", "", [], [], "", "", []⟩).2.2.2.2.2
    (by decide)

/-- C8: before sending, `client.Do` overwrites the `token` query parameter
with the configured access token, sets the `Content-Type` header to
`application/json`, and preserves every other query parameter and header. -/
theorem clientDo_prepares_request (tok : String) (req : Request) :
    getParam (prepareRequest tok req).query "token" = some tok ∧
    getParam (prepareRequest tok req).header "Content-Type" = some "application/json" ∧
    (∀ k, k ≠ "token" →
      getParam (prepareRequest tok req).query k = getParam req.query k) ∧
    (∀ k, k ≠ "Content-Type" →
      getParam (prepareRequest tok req).header k = getParam req.header k) := by
  refine ⟨getParam_setParam_self _ _ _, getParam_setParam_self _ _ _, ?_, ?_⟩
  · intro k hk
    exact getParam_setParam_ne _ _ _ _ hk
  · intro k hk
    exact getParam_setParam_ne _ _ _ _ hk

/-- Witness for C8: a request that already carries `token=old` and `page=3`
is sent with `token=secret`, `page=3` untouched and the JSON content type. -/
theorem clientDo_prepares_request_witness :
    getParam (prepareRequest "secret"
      ⟨"GET", BaseURL ++ "/groups", [("page", "3"), ("token", "old")], [], none⟩).query
      "token" = some "secret" ∧
    getParam (prepareRequest "secret"
      ⟨"GET", BaseURL ++ "/groups", [("page", "3"), ("token", "old")], [], none⟩).query
      "page" = some "3" ∧
    getParam (prepareRequest "secret"
      ⟨"GET", BaseURL ++ "/groups", [("page", "3"), ("token", "old")], [], none⟩).header
      "Content-Type" = some "application/json" := by
  refine ⟨(clientDo_prepares_request "secret" _).1, ?_, (clientDo_prepares_request "secret" _).2.1⟩
  exact ((clientDo_prepares_request "secret"
    ⟨"GET", BaseURL ++ "/groups", [("page", "3"), ("token", "old")], [], none⟩).2.2.1
    "page" (by decide)).trans (by decide)

/-- C9 (code bug in the source): on the error-envelope path of `client.Do`,
when the body fails to decode as the `Error` envelope the function returns
the decode error before `resp.Body.Close()` is reached, so the body is not
released on that exit path; when the decode succeeds the body is closed. -/
theorem clientDo_error_path_body_leak :
    clientDo "tok" (fun _ => Except.ok ⟨404, none⟩)
      ⟨"GET", BaseURL ++ "/groups", [], [], none⟩ =
      ⟨DoOutcome.decodeErr, false⟩ ∧
    clientDo "tok" (fun _ => Except.ok ⟨404, some (Json.obj [("meta",
        Json.obj [("code", Json.num 404), ("errors", Json.arr [Json.str "not found"])])])⟩)
      ⟨"GET", BaseURL ++ "/groups", [], [], none⟩ =
      ⟨DoOutcome.apiErr 404 ["not found"], true⟩ := by
  constructor <;> rfl

/-- C10: a `nil` options pointer behaves exactly like the zero-valued
options record: no pagination, omit, limit or cursor parameter is sent. -/
theorem nil_options_default (tok gid : String) (net : Net) :
    groupsIndex tok net none = groupsIndex tok net (some GroupsIndexOptions.zero) ∧
    messagesIndex tok net gid none = messagesIndex tok net gid (some MessagesIndexOptions.zero) ∧
    groupsIndexParams GroupsIndexOptions.zero = [] ∧
    messagesIndexParams MessagesIndexOptions.zero = Except.ok [] :=
  ⟨rfl, rfl, rfl, rfl⟩

end GroupMe
